import Mathlib

/-!
Shallow embedding of `src/server.js` (Spinkar backend): an in-memory wallet,
withdrawal workflow and manual-payment workflow behind an HTTP route layer.

Modelling conventions:
* JS numbers that the code keeps integral (balances, parsed coin counts) are
  `Int`; request-body numbers that may be fractional (set-balance amount,
  create-order coins, manual-claim amount) are `ℚ`.
* A request field that may be absent / fail to parse (`parseInt` giving `NaN`,
  `typeof x !== "number"`) is an `Option`; a string field is `String`, with the
  empty string playing the role of the falsy missing value, exactly as the
  code's `!field` checks treat `""` and `undefined` alike.
* `Math.round x` is `⌊x + 1/2⌋` (JS rounds half toward +∞).
* The global `players` object is an association list `List (String × Player)`;
  the global `manualPayments` array is a `List ManualClaim`.
* The HMAC-SHA256 of the adapter (secret baked in) is an abstract parameter
  `hmac : String → String`; the code only ever compares its output for
  string equality.
* `new Date().toISOString()` is an opaque `time : String` input of each
  mutating operation that stores it.
* Each route handler becomes a function `ServerState → inputs →
  Except ApiError payload × ServerState`.
-/

namespace Spinkar

/-- One entry of a player's `withdrawHistory` (server.js lines 159-167). -/
structure WithdrawRecord where
  coins : Int
  amountInRupees : String
  upiId : String
  status : String
  txnId : String
  note : String
  time : String
deriving DecidableEq

/-- A player record of the global `players` map (server.js lines 29-34). -/
structure Player where
  balance : Int
  withdrawHistory : List WithdrawRecord
deriving DecidableEq

/-- One entry of the global `manualPayments` array (server.js lines 267-273). -/
structure ManualClaim where
  player : String
  amount : ℚ
  txnId : String
  status : String
  time : String
deriving DecidableEq

/-- The whole mutable state of the process: the `players` object and the
`manualPayments` array. -/
structure ServerState where
  players : List (String × Player)
  manualPayments : List ManualClaim
deriving DecidableEq

/-- State at process start: both stores empty. -/
def initState : ServerState := ⟨[], []⟩

/-- The record `getPlayer` creates for an unknown name: 1000 starting coins,
empty history (server.js lines 30-33). -/
def freshPlayer : Player := ⟨1000, []⟩

/-- Lookup in the `players` object. -/
def lookupPlayer : List (String × Player) → String → Option Player
  | [], _ => none
  | (k, v) :: rest, key => if k = key then some v else lookupPlayer rest key

/-- Assignment `players[k] = v`: replace the binding if present, else append. -/
def setPlayer : List (String × Player) → String → Player → List (String × Player)
  | [], k, v => [(k, v)]
  | (k', v') :: rest, k, v =>
    if k' = k then (k, v) :: rest else (k', v') :: setPlayer rest k v

/-- `if (!player) player = "Guest"` (server.js line 28). -/
def normName (player : String) : String := if player = "" then "Guest" else player

/-- `getPlayer` (server.js lines 27-36): returns the record for the normalized
name, creating `freshPlayer` in the store when absent. Returns the record
together with the (possibly extended) store. -/
def getPlayer (ps : List (String × Player)) (player : String) :
    Player × List (String × Player) :=
  let k := normName player
  match lookupPlayer ps k with
  | some p => (p, ps)
  | none => (freshPlayer, setPlayer ps k freshPlayer)

/-- Error taxonomy of the route layer, keeping the literal response message
where the handler has one. `InvalidInput` covers every 400 "malformed field"
response, `BelowMinimum` is the 400 "Minimum withdrawal 1000 coins",
`InsufficientBalance` the 400 "Insufficient balance", `SignatureMismatch` the
400 "Invalid payment signature", `NotFound` the 404. -/
inductive ApiError where
  | InvalidInput (msg : String)
  | SignatureMismatch
  | BelowMinimum
  | InsufficientBalance
  | NotFound (msg : String)
deriving DecidableEq

deriving instance DecidableEq for Except

/-- JS `upiId.includes('@')` for the single-character needle used by the code:
true when the character occurs in the string. -/
def jsIncludes (s : String) (c : Char) : Bool := s.data.contains c

/-- JS `Math.round`: round half toward positive infinity. -/
def jsRound (q : ℚ) : Int := Int.floor (q + 1 / 2)

/-- `(coinsNum / 100).toFixed(2)` for the integral coin counts that reach it
(server.js line 157): whole rupees, a dot, and exactly two fraction digits. -/
def rupeesString (c : Int) : String :=
  let whole := c / 100
  let frac := (c % 100).toNat
  toString whole ++ "." ++ (if frac < 10 then "0" else "") ++ toString frac

/-- `POST /api/wallet/set-balance` (server.js lines 57-65). `amount = none`
models a body whose `balance` is not a number at all. -/
def setBalance (st : ServerState) (player : String) (amount : Option ℚ) :
    Except ApiError Int × ServerState :=
  match amount with
  | none => (.error (.InvalidInput "Invalid balance"), st)
  | some q =>
    if q < 0 then (.error (.InvalidInput "Invalid balance"), st)
    else
      let gp := getPlayer st.players player
      let p2 := { gp.1 with balance := jsRound q }
      (.ok p2.balance, { st with players := setPlayer gp.2 (normName player) p2 })

/-- `POST /api/create-order` (server.js lines 68-102), up to the gateway call:
validates `coins` and computes the `amountPaise` handed to the gateway, which
the success response echoes back as `amount`. The state is untouched. -/
def createOrder (coins : ℚ) : Except ApiError Int :=
  if coins = 0 ∨ coins ≤ 0 then .error (.InvalidInput "Invalid coins amount")
  else .ok (jsRound (coins / 100 * 100))

/-- `POST /api/payment/verify` (server.js lines 105-135). `coins = none`
models `parseInt(coins, 10)` returning `NaN`; the handler then falls back to
`0` via `|| 0`. `hmac` is the HMAC-SHA256 with the gateway secret. -/
def verifyPayment (hmac : String → String) (st : ServerState) (player : String)
    (coins : Option Int) (orderId paymentId signature : String) :
    Except ApiError Int × ServerState :=
  if orderId = "" ∨ paymentId = "" ∨ signature = "" then
    (.error (.InvalidInput "Missing payment details"), st)
  else if hmac (orderId ++ "|" ++ paymentId) ≠ signature then
    (.error .SignatureMismatch, st)
  else
    let gp := getPlayer st.players player
    let coinsNum := coins.getD 0
    let p2 := { gp.1 with balance := gp.1.balance + coinsNum }
    (.ok p2.balance, { st with players := setPlayer gp.2 (normName player) p2 })

/-- `POST /api/withdraw-request` (server.js lines 138-181). Note the handler
calls `getPlayer` before any validation, so even a failing request creates the
player record. `coins = none` models a `NaN` parse (falsy, like `0`). -/
def requestWithdrawal (st : ServerState) (player upiId : String)
    (coins : Option Int) (time : String) :
    Except ApiError (Int × List WithdrawRecord) × ServerState :=
  let gp := getPlayer st.players player
  let st1 : ServerState := { st with players := gp.2 }
  if jsIncludes upiId '@' = false then
    (.error (.InvalidInput "Invalid UPI ID"), st1)
  else
    match coins with
    | none => (.error .BelowMinimum, st1)
    | some c =>
      if c = 0 ∨ c < 1000 then (.error .BelowMinimum, st1)
      else if gp.1.balance < c then (.error .InsufficientBalance, st1)
      else
        let entry : WithdrawRecord :=
          ⟨c, rupeesString c, upiId, "Pending", "", "", time⟩
        let p2 : Player :=
          ⟨gp.1.balance - c, gp.1.withdrawHistory ++ [entry]⟩
        (.ok (p2.balance, p2.withdrawHistory),
          { st with players := setPlayer gp.2 (normName player) p2 })

/-- JS `l[i]` for a possibly negative or out-of-range integer index:
`undefined` (here `none`) unless `0 ≤ i < l.length`. -/
def listGetInt (l : List α) (i : Int) : Option α :=
  if i < 0 then none else l.get? i.toNat

/-- `POST /api/admin/withdrawals/update` (server.js lines 222-248), after the
admin gate. `index = none` models a body whose `index` is not a number. Note
`getPlayer` runs after the field validation but before the index bound check,
so an unknown player name is created even on the 404 path. -/
def adminUpdate (st : ServerState) (player : String) (index : Option Int)
    (status txnId note : String) :
    Except ApiError (List WithdrawRecord) × ServerState :=
  match index with
  | none => (.error (.InvalidInput "Player and index required"), st)
  | some i =>
    if player = "" then (.error (.InvalidInput "Player and index required"), st)
    else if ¬ (status = "Pending" ∨ status = "Approved" ∨ status = "Rejected") then
      (.error (.InvalidInput "Invalid status"), st)
    else
      let gp := getPlayer st.players player
      let st1 : ServerState := { st with players := gp.2 }
      match listGetInt gp.1.withdrawHistory i with
      | none => (.error (.NotFound "Withdraw not found"), st1)
      | some w =>
        let w2 : WithdrawRecord :=
          { w with
            status := status
            txnId := if txnId = "" then w.txnId else txnId
            note := if note = "" then w.note else note }
        let p2 : Player := { gp.1 with withdrawHistory := gp.1.withdrawHistory.set i.toNat w2 }
        (.ok p2.withdrawHistory,
          { st with players := setPlayer gp.2 (normName player) p2 })

/-- `POST /api/manual-add` (server.js lines 259-280). `amount = none` models a
missing amount; `some 0` is falsy in the `!amount` guard exactly like the
number `0`. -/
def submitClaim (st : ServerState) (player : String) (amount : Option ℚ)
    (txnId time : String) : Except ApiError Unit × ServerState :=
  match amount with
  | none => (.error (.InvalidInput "All fields required"), st)
  | some q =>
    if player = "" ∨ q = 0 ∨ txnId = "" then
      (.error (.InvalidInput "All fields required"), st)
    else
      (.ok (),
        { st with manualPayments :=
            st.manualPayments ++ [⟨player, q, txnId, "Pending", time⟩] })

/-- `POST /api/admin/manual-approve` (server.js lines 288-312), after the
admin gate. Credits `Math.round(amount * 100)` coins to the claimed player and
marks the claim `Approved`. -/
def adminApprove (st : ServerState) (index : Option Int) :
    Except ApiError Int × ServerState :=
  match index with
  | none => (.error (.InvalidInput "Invalid request"), st)
  | some i =>
    match listGetInt st.manualPayments i with
    | none => (.error (.InvalidInput "Invalid request"), st)
    | some item =>
      if item.status ≠ "Pending" then (.error (.InvalidInput "Invalid request"), st)
      else
        let coins := jsRound (item.amount * 100)
        let gp := getPlayer st.players item.player
        let p2 : Player := { gp.1 with balance := gp.1.balance + coins }
        (.ok p2.balance,
          { players := setPlayer gp.2 (normName item.player) p2
            manualPayments := st.manualPayments.set i.toNat { item with status := "Approved" } })

/-- The public mutating interface, one constructor per route handler that can
change the state. -/
inductive Op where
  | setBalance (player : String) (amount : Option ℚ)
  | verifyPayment (player : String) (coins : Option Int)
      (orderId paymentId signature : String)
  | requestWithdrawal (player upiId : String) (coins : Option Int) (time : String)
  | adminUpdate (player : String) (index : Option Int) (status txnId note : String)
  | submitClaim (player : String) (amount : Option ℚ) (txnId time : String)
  | adminApprove (index : Option Int)
deriving DecidableEq

/-- Execute one operation, keeping only the state (responses are dropped). -/
def step (hmac : String → String) (st : ServerState) : Op → ServerState
  | .setBalance player amount => (setBalance st player amount).2
  | .verifyPayment player coins orderId paymentId signature =>
    (verifyPayment hmac st player coins orderId paymentId signature).2
  | .requestWithdrawal player upiId coins time =>
    (requestWithdrawal st player upiId coins time).2
  | .adminUpdate player index status txnId note =>
    (adminUpdate st player index status txnId note).2
  | .submitClaim player amount txnId time =>
    (submitClaim st player amount txnId time).2
  | .adminApprove index => (adminApprove st index).2

/-- Execute a sequence of operations from left to right. -/
def runOps (hmac : String → String) (st : ServerState) : List Op → ServerState
  | [] => st
  | op :: ops => runOps hmac (step hmac st op) ops

/-- Observable balance of a player: what `GET /api/wallet` reports (1000 for a
name not yet in the store). -/
def balanceOf (st : ServerState) (player : String) : Int :=
  (getPlayer st.players player).1.balance

/-- Observable withdrawal history of a player: what `GET /api/withdraw-history`
reports. -/
def historyOf (st : ServerState) (player : String) : List WithdrawRecord :=
  (getPlayer st.players player).1.withdrawHistory

/-- Every balance stored in the `players` object is non-negative. -/
def balancesNonnegL (ps : List (String × Player)) : Prop :=
  ∀ e ∈ ps, 0 ≤ e.2.balance

/-- Every player's balance in the state is non-negative. -/
def balancesNonneg (st : ServerState) : Prop := balancesNonnegL st.players

instance (ps : List (String × Player)) : Decidable (balancesNonnegL ps) := by
  unfold balancesNonnegL; infer_instance

instance (st : ServerState) : Decidable (balancesNonneg st) := by
  unfold balancesNonneg; infer_instance

/-- Every manual claim stored in the state has a non-negative amount. -/
def claimsNonneg (st : ServerState) : Prop :=
  ∀ c ∈ st.manualPayments, 0 ≤ c.amount

/-- The inductive invariant used for the balance claim: balances and stored
claim amounts are non-negative. -/
def stateInv (st : ServerState) : Prop := balancesNonneg st ∧ claimsNonneg st

/-- An operation whose externally supplied credit amounts are non-negative:
the coins a payment verification credits, and the amount a manual claim
carries. All other operations are unconstrained. -/
def goodOp : Op → Prop
  | .verifyPayment _ coins _ _ _ => 0 ≤ coins.getD 0
  | .submitClaim _ amount _ _ => 0 ≤ amount.getD 0
  | _ => True

instance (op : Op) : Decidable (goodOp op) := by
  cases op <;> (unfold goodOp; infer_instance)

theorem lookupPlayer_setPlayer_self (ps : List (String × Player)) (k : String)
    (p : Player) : lookupPlayer (setPlayer ps k p) k = some p := by
  induction ps with
  | nil => simp [setPlayer, lookupPlayer]
  | cons e rest ih =>
    obtain ⟨k', v'⟩ := e
    by_cases h : k' = k
    · simp [setPlayer, h, lookupPlayer]
    · simp [setPlayer, h, lookupPlayer, ih]

theorem lookupPlayer_setPlayer_ne (ps : List (String × Player)) {k k' : String}
    (p : Player) (h : k' ≠ k) :
    lookupPlayer (setPlayer ps k p) k' = lookupPlayer ps k' := by
  have hne : ¬ k = k' := fun h2 => h h2.symm
  induction ps with
  | nil => simp [setPlayer, lookupPlayer, hne]
  | cons e rest ih =>
    obtain ⟨k'', v''⟩ := e
    by_cases h2 : k'' = k
    · subst h2
      simp [setPlayer, lookupPlayer, hne]
    · simp [setPlayer, h2, lookupPlayer, ih]

theorem mem_setPlayer {ps : List (String × Player)} {k : String} {p : Player}
    {e : String × Player} (h : e ∈ setPlayer ps k p) : e = (k, p) ∨ e ∈ ps := by
  induction ps with
  | nil => simpa [setPlayer] using h
  | cons e2 rest ih =>
    obtain ⟨k', v'⟩ := e2
    simp only [setPlayer] at h
    split at h
    · rcases List.mem_cons.mp h with h3 | h3
      · exact Or.inl h3
      · exact Or.inr (List.mem_cons_of_mem _ h3)
    · rcases List.mem_cons.mp h with h3 | h3
      · exact Or.inr (by simp [h3])
      · rcases ih h3 with h4 | h4
        · exact Or.inl h4
        · exact Or.inr (List.mem_cons_of_mem _ h4)

theorem lookupPlayer_mem {ps : List (String × Player)} {k : String} {p : Player}
    (h : lookupPlayer ps k = some p) : (k, p) ∈ ps := by
  induction ps with
  | nil => simp [lookupPlayer] at h
  | cons e rest ih =>
    obtain ⟨k', v'⟩ := e
    simp only [lookupPlayer] at h
    split at h
    · rename_i heq
      cases h
      subst heq
      exact List.mem_cons_self _ _
    · exact List.mem_cons_of_mem _ (ih h)

theorem balancesNonnegL_setPlayer {ps : List (String × Player)} {k : String}
    {p : Player} (h : balancesNonnegL ps) (hp : 0 ≤ p.balance) :
    balancesNonnegL (setPlayer ps k p) := by
  intro e he
  rcases mem_setPlayer he with rfl | he2
  · exact hp
  · exact h e he2

theorem getPlayer_lookup_snd (ps : List (String × Player)) (player : String) :
    lookupPlayer (getPlayer ps player).2 (normName player)
      = some (getPlayer ps player).1 := by
  unfold getPlayer
  cases h : lookupPlayer ps (normName player) with
  | some p => simp [h]
  | none => simp [h, lookupPlayer_setPlayer_self]

theorem getPlayer_getPlayer (ps : List (String × Player)) (player : String) :
    getPlayer (getPlayer ps player).2 player
      = ((getPlayer ps player).1, (getPlayer ps player).2) := by
  have h := getPlayer_lookup_snd ps player
  rcases hg : getPlayer ps player with ⟨p, ps2⟩
  rw [hg] at h
  simp only at h ⊢
  unfold getPlayer
  simp [h]

theorem getPlayer_balance_nonneg {ps : List (String × Player)}
    (h : balancesNonnegL ps) (player : String) :
    0 ≤ (getPlayer ps player).1.balance := by
  unfold getPlayer
  cases h2 : lookupPlayer ps (normName player) with
  | some p =>
    simp only [h2]
    simpa using h _ (lookupPlayer_mem h2)
  | none => simp [h2, freshPlayer]

theorem balancesNonnegL_getPlayer_snd {ps : List (String × Player)}
    (h : balancesNonnegL ps) (player : String) :
    balancesNonnegL (getPlayer ps player).2 := by
  unfold getPlayer
  cases h2 : lookupPlayer ps (normName player) with
  | some p => simpa [h2] using h
  | none =>
    simp only [h2]
    exact balancesNonnegL_setPlayer h (by simp [freshPlayer])

theorem jsRound_nonneg {q : ℚ} (h : 0 ≤ q) : 0 ≤ jsRound q := by
  unfold jsRound
  have h2 : (0 : ℚ) ≤ q + 1 / 2 := by linarith
  exact Int.floor_nonneg.mpr h2

theorem jsRound_intCast (n : ℤ) : jsRound (n : ℚ) = n := by
  unfold jsRound
  rw [Int.floor_int_add]
  norm_num

theorem listGetInt_mem {l : List α} {i : Int} {a : α}
    (h : listGetInt l i = some a) : a ∈ l := by
  unfold listGetInt at h
  split at h
  · exact absurd h (by simp)
  · exact List.get?_mem h

theorem setBalance_inv {st : ServerState} (player : String) (amount : Option ℚ)
    (h : stateInv st) : stateInv (setBalance st player amount).2 := by
  obtain ⟨hb, hc⟩ := h
  unfold setBalance
  cases amount with
  | none => exact ⟨hb, hc⟩
  | some q =>
    by_cases h2 : q < 0
    · simpa [h2] using And.intro hb hc
    · simp only [h2, if_false]
      exact ⟨balancesNonnegL_setPlayer (balancesNonnegL_getPlayer_snd hb player)
        (jsRound_nonneg (not_lt.mp h2)), hc⟩

theorem verifyPayment_inv (hmac : String → String) {st : ServerState}
    (player : String) (coins : Option Int) (orderId paymentId signature : String)
    (h : stateInv st) (hc : 0 ≤ coins.getD 0) :
    stateInv (verifyPayment hmac st player coins orderId paymentId signature).2 := by
  obtain ⟨hb, hcl⟩ := h
  unfold verifyPayment
  split
  · exact ⟨hb, hcl⟩
  · split
    · exact ⟨hb, hcl⟩
    · exact ⟨balancesNonnegL_setPlayer (balancesNonnegL_getPlayer_snd hb player)
        (add_nonneg (getPlayer_balance_nonneg hb player) hc), hcl⟩

theorem requestWithdrawal_inv {st : ServerState} (player upiId : String)
    (coins : Option Int) (time : String) (h : stateInv st) :
    stateInv (requestWithdrawal st player upiId coins time).2 := by
  obtain ⟨hb, hcl⟩ := h
  have hgs := balancesNonnegL_getPlayer_snd hb player
  simp only [requestWithdrawal]
  by_cases h1 : jsIncludes upiId '@' = false
  · rw [if_pos h1]
    exact ⟨hgs, hcl⟩
  · rw [if_neg h1]
    cases coins with
    | none => exact ⟨hgs, hcl⟩
    | some c =>
      simp only []
      by_cases h2 : c = 0 ∨ c < 1000
      · rw [if_pos h2]
        exact ⟨hgs, hcl⟩
      · rw [if_neg h2]
        by_cases h3 : (getPlayer st.players player).1.balance < c
        · rw [if_pos h3]
          exact ⟨hgs, hcl⟩
        · rw [if_neg h3]
          exact ⟨balancesNonnegL_setPlayer hgs (sub_nonneg.mpr (not_lt.mp h3)), hcl⟩

theorem adminUpdate_inv {st : ServerState} (player : String) (index : Option Int)
    (status txnId note : String) (h : stateInv st) :
    stateInv (adminUpdate st player index status txnId note).2 := by
  obtain ⟨hb, hcl⟩ := h
  simp only [adminUpdate]
  cases index with
  | none => exact ⟨hb, hcl⟩
  | some i =>
    simp only []
    by_cases h1 : player = ""
    · rw [if_pos h1]
      exact ⟨hb, hcl⟩
    · rw [if_neg h1]
      by_cases h2 : ¬ (status = "Pending" ∨ status = "Approved" ∨ status = "Rejected")
      · rw [if_pos h2]
        exact ⟨hb, hcl⟩
      · rw [if_neg h2]
        have hgs := balancesNonnegL_getPlayer_snd hb player
        cases h3 : listGetInt (getPlayer st.players player).1.withdrawHistory i with
        | none =>
          simp only [h3]
          exact ⟨hgs, hcl⟩
        | some w =>
          simp only [h3]
          exact ⟨balancesNonnegL_setPlayer hgs (getPlayer_balance_nonneg hb player), hcl⟩

theorem submitClaim_inv {st : ServerState} (player : String) (amount : Option ℚ)
    (txnId time : String) (h : stateInv st) (ha : 0 ≤ amount.getD 0) :
    stateInv (submitClaim st player amount txnId time).2 := by
  obtain ⟨hb, hcl⟩ := h
  simp only [submitClaim]
  cases amount with
  | none => exact ⟨hb, hcl⟩
  | some q =>
    simp only []
    by_cases h2 : player = "" ∨ q = 0 ∨ txnId = ""
    · rw [if_pos h2]
      exact ⟨hb, hcl⟩
    · rw [if_neg h2]
      refine ⟨hb, ?_⟩
      intro c hcmem
      rcases List.mem_append.mp hcmem with h3 | h3
      · exact hcl c h3
      · simp only [List.mem_singleton] at h3
        subst h3
        simpa using ha

theorem adminApprove_inv {st : ServerState} (index : Option Int)
    (h : stateInv st) : stateInv (adminApprove st index).2 := by
  obtain ⟨hb, hcl⟩ := h
  simp only [adminApprove]
  cases index with
  | none => exact ⟨hb, hcl⟩
  | some i =>
    simp only []
    cases hitem : listGetInt st.manualPayments i with
    | none =>
      simp only [hitem]
      exact ⟨hb, hcl⟩
    | some item =>
      simp only [hitem]
      by_cases hs : item.status ≠ "Pending"
      · rw [if_pos hs]
        exact ⟨hb, hcl⟩
      · rw [if_neg hs]
        have hamt : 0 ≤ item.amount := hcl item (listGetInt_mem hitem)
        have hcoins : 0 ≤ jsRound (item.amount * 100) :=
          jsRound_nonneg (mul_nonneg hamt (by norm_num))
        constructor
        · exact balancesNonnegL_setPlayer
            (balancesNonnegL_getPlayer_snd hb item.player)
            (add_nonneg (getPlayer_balance_nonneg hb item.player) hcoins)
        · intro c hcmem
          rcases List.mem_or_eq_of_mem_set hcmem with h2 | h2
          · exact hcl c h2
          · subst h2
            simpa using hamt

theorem step_inv (hmac : String → String) {st : ServerState} (op : Op)
    (h : stateInv st) (hop : goodOp op) : stateInv (step hmac st op) := by
  cases op with
  | setBalance player amount => exact setBalance_inv player amount h
  | verifyPayment player coins orderId paymentId signature =>
    exact verifyPayment_inv hmac player coins orderId paymentId signature h hop
  | requestWithdrawal player upiId coins time =>
    exact requestWithdrawal_inv player upiId coins time h
  | adminUpdate player index status txnId note =>
    exact adminUpdate_inv player index status txnId note h
  | submitClaim player amount txnId time =>
    exact submitClaim_inv player amount txnId time h hop
  | adminApprove index => exact adminApprove_inv index h

theorem runOps_inv (hmac : String → String) {st : ServerState} (ops : List Op)
    (h : stateInv st) (hops : ∀ op ∈ ops, goodOp op) :
    stateInv (runOps hmac st ops) := by
  induction ops generalizing st with
  | nil => simpa [runOps]
  | cons op rest ih =>
    simp only [runOps]
    exact ih (step_inv hmac op h (hops op (by simp)))
      (fun o ho => hops o (by simp [ho]))

theorem initState_inv : stateInv initState :=
  ⟨fun e he => absurd he (by simp [initState]),
   fun c hc => absurd hc (by simp [initState])⟩

theorem getPlayer_setPlayer_self (ps : List (String × Player)) (player : String)
    (p : Player) :
    getPlayer (setPlayer ps (normName player) p) player
      = (p, setPlayer ps (normName player) p) := by
  unfold getPlayer
  simp [lookupPlayer_setPlayer_self]

theorem getPlayer_snd_fst (ps : List (String × Player)) (player : String) :
    (getPlayer (getPlayer ps player).2 player).1 = (getPlayer ps player).1 := by
  rw [getPlayer_getPlayer]

/-- After a failing request that still ran `getPlayer`, the observable balance
and history of the player are what they were before. -/
theorem observables_getPlayer_snd (st : ServerState) (m : List ManualClaim)
    (player : String) :
    balanceOf ⟨(getPlayer st.players player).2, m⟩ player = balanceOf st player
    ∧ historyOf ⟨(getPlayer st.players player).2, m⟩ player = historyOf st player := by
  unfold balanceOf historyOf
  simp [getPlayer_snd_fst]

/-- C1 (amended): starting from the empty store, under every sequence of
public operations whose externally supplied credit amounts are non-negative
(the coins field of a `verifyPayment` parses to a non-negative integer, and
the amount of a `submitClaim` is non-negative), every stored balance — an
integer by construction — stays non-negative. Without that proviso the claim
is false: see the counterexample, where a verified payment with coins -2000
drives a balance to -1000. -/
theorem C1_balances_nonneg (hmac : String → String) (ops : List Op)
    (hops : ∀ op ∈ ops, goodOp op) :
    balancesNonneg (runOps hmac initState ops) :=
  (runOps_inv hmac ops initState_inv hops).1

/-- Witness for C1: a concrete operation sequence exercising purchase,
withdrawal and manual-claim approval keeps all balances non-negative. -/
theorem C1_witness :
    (∀ op ∈ [Op.verifyPayment "A" (some 200) "o" "p" "sig",
             Op.requestWithdrawal "A" "a@b" (some 1000) "t1",
             Op.submitClaim "B" (some 50) "X1" "t2",
             Op.adminApprove (some 0)], goodOp op)
    ∧ balancesNonneg (runOps (fun _ => "sig") initState
        [Op.verifyPayment "A" (some 200) "o" "p" "sig",
         Op.requestWithdrawal "A" "a@b" (some 1000) "t1",
         Op.submitClaim "B" (some 50) "X1" "t2",
         Op.adminApprove (some 0)]) :=
  ⟨by decide, C1_balances_nonneg (fun _ => "sig") _ (by decide)⟩

/-- C1 counterexample: `verifyPayment` applies `parseInt(coins) || 0` without
a sign check, so a request carrying the correct signature but coins "-2000"
is accepted and leaves player "A" with balance -1000 < 0. -/
theorem C1_counterexample :
    ¬ balancesNonneg (runOps (fun _ => "sig") initState
        [Op.verifyPayment "A" (some (-2000)) "o" "p" "sig"]) := by
  decide

/-- C2 (amended): a valid `adminUpdate` overwrites the status of the record at
the given index with the supplied status unconditionally — there is no check
of the record's current status, so Approved and Rejected are not terminal and
Pending can be re-entered; txnId and note keep their prior value when the
supplied one is empty. -/
theorem C2_adminUpdate_overwrites (st : ServerState) (player : String) (i : Int)
    (status txnId note : String) (w : WithdrawRecord)
    (hp : player ≠ "")
    (hs : status = "Pending" ∨ status = "Approved" ∨ status = "Rejected")
    (hw : listGetInt (historyOf st player) i = some w) :
    (adminUpdate st player (some i) status txnId note).1
        = .ok ((historyOf st player).set i.toNat
            { w with
              status := status
              txnId := if txnId = "" then w.txnId else txnId
              note := if note = "" then w.note else note })
    ∧ historyOf (adminUpdate st player (some i) status txnId note).2 player
        = (historyOf st player).set i.toNat
            { w with
              status := status
              txnId := if txnId = "" then w.txnId else txnId
              note := if note = "" then w.note else note } := by
  unfold historyOf at hw ⊢
  unfold adminUpdate
  simp only [if_neg hp, if_neg (not_not_intro hs), hw]
  simp [getPlayer_setPlayer_self]

/-- Witness for C2's amended theorem: updating an Approved record back to
Pending succeeds and overwrites the status. -/
theorem C2_witness :
    (adminUpdate
        ⟨[("A", ⟨0, [⟨1000, "10.00", "a@b", "Approved", "T1", "", "t1"⟩]⟩)], []⟩
        "A" (some 0) "Pending" "" "").1
      = .ok [⟨1000, "10.00", "a@b", "Pending", "T1", "", "t1"⟩] :=
  (C2_adminUpdate_overwrites
    ⟨[("A", ⟨0, [⟨1000, "10.00", "a@b", "Approved", "T1", "", "t1"⟩]⟩)], []⟩
    "A" 0 "Pending" "" "" ⟨1000, "10.00", "a@b", "Approved", "T1", "", "t1"⟩
    (by decide) (Or.inl rfl) (by decide)).1

/-- C2 counterexample: a record that has reached Approved is changed back to
Pending by a later adminUpdate — Approved is not terminal and Pending is
re-entered after creation, refuting the claimed state machine. -/
theorem C2_counterexample :
    (historyOf (runOps (fun _ => "") initState
        [Op.requestWithdrawal "A" "a@b" (some 1000) "t1",
         Op.adminUpdate "A" (some 0) "Approved" "T1" ""]) "A").map
        WithdrawRecord.status = ["Approved"]
    ∧ (historyOf (runOps (fun _ => "") initState
        [Op.requestWithdrawal "A" "a@b" (some 1000) "t1",
         Op.adminUpdate "A" (some 0) "Approved" "T1" "",
         Op.adminUpdate "A" (some 0) "Pending" "" ""]) "A").map
        WithdrawRecord.status = ["Pending"] := by
  constructor
  · decide
  · decide

/-- C3: with all three payment fields supplied, whenever the recomputed HMAC
over `orderId ++ "|" ++ paymentId` differs from the supplied signature,
`verifyPayment` fails with SignatureMismatch and the state — hence every
player's balance — is unchanged. -/
theorem C3_signature_mismatch (hmac : String → String) (st : ServerState)
    (player : String) (coins : Option Int) (orderId paymentId signature : String)
    (ho : orderId ≠ "") (hp : paymentId ≠ "") (hs : signature ≠ "")
    (hsig : hmac (orderId ++ "|" ++ paymentId) ≠ signature) :
    verifyPayment hmac st player coins orderId paymentId signature
      = (.error .SignatureMismatch, st) := by
  unfold verifyPayment
  rw [if_neg (by simp [ho, hp, hs]), if_pos hsig]

/-- Witness for C3: a signature that does not match the recomputed digest is
rejected with SignatureMismatch, state untouched. -/
theorem C3_witness :
    verifyPayment (fun _ => "good") initState "A" (some 100) "o" "p" "bad"
      = (.error .SignatureMismatch, initState) :=
  C3_signature_mismatch (fun _ => "good") initState "A" (some 100) "o" "p" "bad"
    (by decide) (by decide) (by decide) (by decide)

/-- The player's observable balance and withdrawal history agree between two
states. -/
def unchangedFor (st st2 : ServerState) (player : String) : Prop :=
  balanceOf st2 player = balanceOf st player
    ∧ historyOf st2 player = historyOf st player

/-- C4: `requestWithdrawal` fails with InvalidInput when the destination lacks
an "@"; fails with BelowMinimum when the parsed coins are missing, zero, or
below 1000 (999 in particular); fails with InsufficientBalance when the coins
exceed the player's current balance; on every failure the player's observable
balance and withdrawal history are unchanged; and a request of at least 1000
coins not exceeding the balance (exactly 1000 in particular) succeeds,
debiting the coins and leaving a non-negative balance. -/
theorem C4_requestWithdrawal_guards (st : ServerState) (player upiId : String)
    (coins : Option Int) (time : String) :
    (jsIncludes upiId '@' = false →
      (requestWithdrawal st player upiId coins time).1
          = .error (.InvalidInput "Invalid UPI ID")
        ∧ unchangedFor st (requestWithdrawal st player upiId coins time).2 player)
    ∧ (jsIncludes upiId '@' = true →
        (coins = none ∨ ∃ c, coins = some c ∧ (c = 0 ∨ c < 1000)) →
        (requestWithdrawal st player upiId coins time).1 = .error .BelowMinimum
          ∧ unchangedFor st (requestWithdrawal st player upiId coins time).2 player)
    ∧ (∀ c : Int, jsIncludes upiId '@' = true → coins = some c → 1000 ≤ c →
        balanceOf st player < c →
        (requestWithdrawal st player upiId coins time).1 = .error .InsufficientBalance
          ∧ unchangedFor st (requestWithdrawal st player upiId coins time).2 player)
    ∧ (∀ c : Int, jsIncludes upiId '@' = true → coins = some c → 1000 ≤ c →
        c ≤ balanceOf st player →
        (requestWithdrawal st player upiId coins time).1
            = .ok (balanceOf st player - c,
                historyOf st player ++ [⟨c, rupeesString c, upiId, "Pending", "", "", time⟩])
          ∧ 0 ≤ balanceOf st player - c
          ∧ balanceOf (requestWithdrawal st player upiId coins time).2 player
              = balanceOf st player - c) := by
  refine ⟨?_, ?_, ?_, ?_⟩
  · intro h1
    have hre : requestWithdrawal st player upiId coins time
        = (.error (.InvalidInput "Invalid UPI ID"),
           ⟨(getPlayer st.players player).2, st.manualPayments⟩) := by
      unfold requestWithdrawal
      rw [if_pos h1]
    rw [hre]
    exact ⟨rfl, observables_getPlayer_snd st _ player⟩
  · intro h1 h2
    have hnot : ¬ jsIncludes upiId '@' = false := by simp [h1]
    rcases h2 with rfl | ⟨c, rfl, hc⟩
    · have hre : requestWithdrawal st player upiId none time
          = (.error .BelowMinimum,
             ⟨(getPlayer st.players player).2, st.manualPayments⟩) := by
        unfold requestWithdrawal
        rw [if_neg hnot]
      rw [hre]
      exact ⟨rfl, observables_getPlayer_snd st _ player⟩
    · have hre : requestWithdrawal st player upiId (some c) time
          = (.error .BelowMinimum,
             ⟨(getPlayer st.players player).2, st.manualPayments⟩) := by
        simp only [requestWithdrawal, if_neg hnot, if_pos hc]
      rw [hre]
      exact ⟨rfl, observables_getPlayer_snd st _ player⟩
  · intro c h1 hcoins hge hlt
    subst hcoins
    have hnot : ¬ jsIncludes upiId '@' = false := by simp [h1]
    have hmin : ¬ (c = 0 ∨ c < 1000) := by omega
    unfold balanceOf at hlt
    have hre : requestWithdrawal st player upiId (some c) time
        = (.error .InsufficientBalance,
           ⟨(getPlayer st.players player).2, st.manualPayments⟩) := by
      simp only [requestWithdrawal, if_neg hnot, if_neg hmin, if_pos hlt]
    rw [hre]
    exact ⟨rfl, observables_getPlayer_snd st _ player⟩
  · intro c h1 hcoins hge hle
    subst hcoins
    have hnot : ¬ jsIncludes upiId '@' = false := by simp [h1]
    have hmin : ¬ (c = 0 ∨ c < 1000) := by omega
    unfold balanceOf at hle
    have hbal : ¬ (getPlayer st.players player).1.balance < c := not_lt.mpr hle
    have hre : requestWithdrawal st player upiId (some c) time
        = (.ok ((getPlayer st.players player).1.balance - c,
              (getPlayer st.players player).1.withdrawHistory
                ++ [⟨c, rupeesString c, upiId, "Pending", "", "", time⟩]),
           ⟨setPlayer (getPlayer st.players player).2 (normName player)
              ⟨(getPlayer st.players player).1.balance - c,
               (getPlayer st.players player).1.withdrawHistory
                 ++ [⟨c, rupeesString c, upiId, "Pending", "", "", time⟩]⟩,
            st.manualPayments⟩) := by
      simp only [requestWithdrawal, if_neg hnot, if_neg hmin, if_neg hbal]
    rw [hre]
    refine ⟨rfl, by unfold balanceOf; omega, ?_⟩
    unfold balanceOf
    simp [getPlayer_setPlayer_self]

/-- Witness for C4: Alice with balance 1000 — withdrawing exactly 1000 coins
to "alice@upi" succeeds with new balance 0 and a Pending record over "10.00"
rupees, while withdrawing 999 fails with BelowMinimum. -/
theorem C4_witness :
    (requestWithdrawal ⟨[("Alice", ⟨1000, []⟩)], []⟩ "Alice" "alice@upi"
        (some 1000) "t").1
      = .ok (0, [⟨1000, "10.00", "alice@upi", "Pending", "", "", "t"⟩])
    ∧ (requestWithdrawal ⟨[("Alice", ⟨1000, []⟩)], []⟩ "Alice" "alice@upi"
        (some 999) "t").1
      = .error .BelowMinimum := by
  constructor
  · have h := ((C4_requestWithdrawal_guards ⟨[("Alice", ⟨1000, []⟩)], []⟩
      "Alice" "alice@upi" (some 1000) "t").2.2.2
      1000 (by decide) rfl (by decide) (by decide)).1
    exact h.trans (by decide)
  · exact ((C4_requestWithdrawal_guards ⟨[("Alice", ⟨1000, []⟩)], []⟩
      "Alice" "alice@upi" (some 999) "t").2.1
      (by decide) (Or.inr ⟨999, rfl, Or.inr (by decide)⟩)).1

/-- C5: `adminApprove` fails with InvalidInput — leaving the entire state
untouched — whenever there is no claim at the index or the claim there is not
Pending; consequently a second approval of the same index fails and the state
after the failed second call equals the state after the first, so the player
is credited exactly once. -/
theorem C5_adminApprove_guards (st : ServerState) (i : Int) :
    (listGetInt st.manualPayments i = none →
      adminApprove st (some i) = (.error (.InvalidInput "Invalid request"), st))
    ∧ (∀ item, listGetInt st.manualPayments i = some item →
        item.status ≠ "Pending" →
        adminApprove st (some i) = (.error (.InvalidInput "Invalid request"), st))
    ∧ (∀ b st1, adminApprove st (some i) = (.ok b, st1) →
        adminApprove st1 (some i) = (.error (.InvalidInput "Invalid request"), st1)) := by
  refine ⟨?_, ?_, ?_⟩
  · intro hnone
    unfold adminApprove
    simp only [hnone]
  · intro item hitem hstatus
    unfold adminApprove
    simp only [hitem, if_pos hstatus]
  · intro b st1 hok
    unfold adminApprove at hok
    simp only at hok
    cases hitem : listGetInt st.manualPayments i with
    | none => simp [hitem] at hok
    | some item =>
      simp only [hitem] at hok
      by_cases hstatus : item.status ≠ "Pending"
      · rw [if_pos hstatus] at hok
        exact absurd (congrArg Prod.fst hok) (by simp)
      · rw [if_neg hstatus] at hok
        have hst1 : st1.manualPayments
            = st.manualPayments.set i.toNat { item with status := "Approved" } := by
          have := congrArg (fun x => x.2.manualPayments) hok
          simpa using this.symm
        have hget : listGetInt st1.manualPayments i
            = some { item with status := "Approved" } := by
          rw [hst1]
          unfold listGetInt at hitem ⊢
          split at hitem
          · exact absurd hitem (by simp)
          · rw [if_neg (by omega)]
            obtain ⟨hlt, -⟩ := List.get?_eq_some.mp hitem
            exact List.get?_set_eq_of_lt _ hlt
        unfold adminApprove
        simp only [hget, if_pos (by simp : ("Approved" : String) ≠ "Pending")]

/-- Witness for C5: approving an already-Approved claim fails with
InvalidInput and leaves the state untouched; and after a successful approval
of a Pending claim, approving the same index again fails, so the credit
happens exactly once. -/
theorem C5_witness :
    (adminApprove ⟨[], [⟨"Bob", 50, "X1", "Approved", "t"⟩]⟩ (some 0)
        = (.error (.InvalidInput "Invalid request"),
           ⟨[], [⟨"Bob", 50, "X1", "Approved", "t"⟩]⟩))
    ∧ (adminApprove ⟨[("Bob", ⟨6000, []⟩)], [⟨"Bob", 50, "X1", "Approved", "t"⟩]⟩
        (some 0)
        = (.error (.InvalidInput "Invalid request"),
           ⟨[("Bob", ⟨6000, []⟩)], [⟨"Bob", 50, "X1", "Approved", "t"⟩]⟩)) := by
  constructor
  · exact (C5_adminApprove_guards ⟨[], [⟨"Bob", 50, "X1", "Approved", "t"⟩]⟩ 0).2.1
      ⟨"Bob", 50, "X1", "Approved", "t"⟩ rfl (by decide)
  · exact (C5_adminApprove_guards
      ⟨[("Bob", ⟨6000, []⟩)], [⟨"Bob", 50, "X1", "Approved", "t"⟩]⟩ 0).2.1
      ⟨"Bob", 50, "X1", "Approved", "t"⟩ rfl (by decide)

/-- C6: for a Pending manual claim at a valid index, `adminApprove` computes
coins = round(amount × 100), credits exactly that to the claimed player's
balance, marks the claim Approved, and returns the new balance. -/
theorem C6_adminApprove_credits (st : ServerState) (i : Int) (item : ManualClaim)
    (hitem : listGetInt st.manualPayments i = some item)
    (hstatus : item.status = "Pending") :
    (adminApprove st (some i)).1
        = .ok (balanceOf st item.player + jsRound (item.amount * 100))
    ∧ balanceOf (adminApprove st (some i)).2 item.player
        = balanceOf st item.player + jsRound (item.amount * 100)
    ∧ listGetInt (adminApprove st (some i)).2.manualPayments i
        = some { item with status := "Approved" } := by
  have hre : adminApprove st (some i)
      = (.ok ((getPlayer st.players item.player).1.balance
            + jsRound (item.amount * 100)),
         ⟨setPlayer (getPlayer st.players item.player).2 (normName item.player)
            ⟨(getPlayer st.players item.player).1.balance
               + jsRound (item.amount * 100),
             (getPlayer st.players item.player).1.withdrawHistory⟩,
          st.manualPayments.set i.toNat { item with status := "Approved" }⟩) := by
    unfold adminApprove
    simp only [hitem, if_neg (not_not_intro hstatus)]
  rw [hre]
  refine ⟨rfl, ?_, ?_⟩
  · unfold balanceOf
    simp [getPlayer_setPlayer_self]
  · unfold listGetInt at hitem ⊢
    split at hitem
    · exact absurd hitem (by simp)
    · rw [if_neg (by omega)]
      obtain ⟨hlt, -⟩ := List.get?_eq_some.mp hitem
      exact List.get?_set_eq_of_lt _ hlt

/-- Witness for C6: approving the Pending claim {player: "Bob", amount: 50}
at index 0 yields Bob's new balance 1000 + 5000 = 6000 — a credit of exactly
round(50 × 100) = 5000 coins. -/
theorem C6_witness :
    (adminApprove ⟨[], [⟨"Bob", 50, "X1", "Pending", "t"⟩]⟩ (some 0)).1
      = .ok 6000 := by
  have h := (C6_adminApprove_credits ⟨[], [⟨"Bob", 50, "X1", "Pending", "t"⟩]⟩ 0
    ⟨"Bob", 50, "X1", "Pending", "t"⟩ rfl rfl).1
  rw [h]
  norm_num [balanceOf, getPlayer, lookupPlayer, normName, freshPlayer, jsRound]

/-- C7: `setBalance` fails with InvalidInput exactly when the supplied amount
is not a non-negative number (not a number at all, or negative); otherwise it
overwrites the player's balance with the rounded integer value of the amount
and returns it, touching nothing else. -/
theorem C7_setBalance (st : ServerState) (player : String) (amount : Option ℚ) :
    ((setBalance st player amount).1 = .error (.InvalidInput "Invalid balance")
      ↔ (amount = none ∨ ∃ q, amount = some q ∧ q < 0))
    ∧ (∀ q, amount = some q → 0 ≤ q →
        (setBalance st player amount).1 = .ok (jsRound q)
          ∧ balanceOf (setBalance st player amount).2 player = jsRound q
          ∧ (setBalance st player amount).2.manualPayments = st.manualPayments) := by
  constructor
  · constructor
    · intro h
      cases amount with
      | none => exact Or.inl rfl
      | some q =>
        refine Or.inr ⟨q, rfl, ?_⟩
        by_contra h2
        simp only [setBalance, if_neg h2] at h
        exact absurd h (by simp)
    · intro h
      rcases h with rfl | ⟨q, rfl, hq⟩
      · rfl
      · simp only [setBalance, if_pos hq]
  · intro q hq hq0
    subst hq
    have hre : setBalance st player (some q)
        = (.ok (jsRound q),
           ⟨setPlayer (getPlayer st.players player).2 (normName player)
              ⟨jsRound q, (getPlayer st.players player).1.withdrawHistory⟩,
            st.manualPayments⟩) := by
      simp only [setBalance, if_neg (not_lt.mpr hq0)]
    rw [hre]
    refine ⟨rfl, ?_, rfl⟩
    unfold balanceOf
    simp [getPlayer_setPlayer_self]

/-- Witness for C7: setting balance 5 for player "A" succeeds with balance 5,
and a negative amount is rejected. -/
theorem C7_witness :
    (setBalance initState "A" (some 5)).1 = .ok 5
    ∧ (setBalance initState "A" (some (-1))).1
        = .error (.InvalidInput "Invalid balance") := by
  constructor
  · have h := ((C7_setBalance initState "A" (some 5)).2 5 rfl (by norm_num)).1
    have h5 : jsRound 5 = 5 := by norm_num [jsRound]
    rw [h, h5]
  · exact (C7_setBalance initState "A" (some (-1))).1.mpr
      (Or.inr ⟨-1, rfl, by norm_num⟩)

theorem getPlayer_of_lookup {ps : List (String × Player)} {player : String}
    {p : Player} (hl : lookupPlayer ps (normName player) = some p) :
    getPlayer ps player = (p, ps) := by
  unfold getPlayer
  simp [hl]

theorem getPlayer_of_lookup_none {ps : List (String × Player)} {player : String}
    (hl : lookupPlayer ps (normName player) = none) :
    getPlayer ps player
      = (freshPlayer, setPlayer ps (normName player) freshPlayer) := by
  unfold getPlayer
  simp [hl]

theorem getPlayer_fst_congr {ps ps2 : List (String × Player)} {player : String}
    (h : lookupPlayer ps2 (normName player) = lookupPlayer ps (normName player)) :
    (getPlayer ps2 player).1 = (getPlayer ps player).1 := by
  unfold getPlayer
  simp only [h]
  cases h2 : lookupPlayer ps (normName player) <;> simp [h2]

/-- C8: `createOrder` fails with InvalidInput when coins ≤ 0, and for every
non-negative integer coin count n the order amount round(n/100 × 100) it
computes equals n exactly — the 100-coins-per-rupee conversion round-trips —
so for positive integer n it succeeds returning exactly n paise. -/
theorem C8_createOrder_roundtrip (coins : ℚ) :
    (coins ≤ 0 → createOrder coins = .error (.InvalidInput "Invalid coins amount"))
    ∧ (∀ n : ℤ, coins = n → 0 ≤ n → jsRound (coins / 100 * 100) = n)
    ∧ (∀ n : ℤ, coins = n → 0 < n → createOrder coins = .ok n) := by
  refine ⟨?_, ?_, ?_⟩
  · intro h
    unfold createOrder
    rw [if_pos (Or.inr h)]
  · intro n hn hn0
    subst hn
    have h2 : ((n : ℚ)) / 100 * 100 = (n : ℚ) := div_mul_cancel₀ _ (by norm_num)
    rw [h2, jsRound_intCast]
  · intro n hn hn0
    subst hn
    have h0 : (0 : ℚ) < (n : ℚ) := by exact_mod_cast hn0
    have h1 : ¬ ((n : ℚ) = 0 ∨ (n : ℚ) ≤ 0) := by
      rw [not_or]
      exact ⟨ne_of_gt h0, not_le.mpr h0⟩
    unfold createOrder
    rw [if_neg h1]
    have h2 : ((n : ℚ)) / 100 * 100 = (n : ℚ) := div_mul_cancel₀ _ (by norm_num)
    rw [h2, jsRound_intCast]

/-- Witness for C8: 250 coins produce an order of exactly 250 paise, and a
non-positive coin count is rejected. -/
theorem C8_witness :
    createOrder ((250 : ℤ) : ℚ) = .ok 250
    ∧ createOrder ((-5 : ℤ) : ℚ) = .error (.InvalidInput "Invalid coins amount") := by
  constructor
  · exact (C8_createOrder_roundtrip ((250 : ℤ) : ℚ)).2.2 250 rfl (by norm_num)
  · exact (C8_createOrder_roundtrip ((-5 : ℤ) : ℚ)).1 (by norm_num)

theorem getPlayer_fst_setPlayer (ps : List (String × Player)) (k : String)
    (pnew : Player) (p2 : String) :
    (getPlayer (setPlayer ps k pnew) p2).1
      = if normName p2 = k then pnew else (getPlayer ps p2).1 := by
  by_cases hn : normName p2 = k
  · rw [if_pos hn]
    unfold getPlayer
    simp only [hn, lookupPlayer_setPlayer_self]
  · rw [if_neg hn]
    exact getPlayer_fst_congr (lookupPlayer_setPlayer_ne ps pnew hn)

theorem getPlayer_fst_eq_of_norm (ps : List (String × Player)) {p2 player : String}
    (hn : normName p2 = normName player) :
    (getPlayer ps p2).1 = (getPlayer ps player).1 := by
  unfold getPlayer
  rw [hn]

/-- C9: a successful `adminUpdate` replaces only the record at the targeted
index, overwriting its status and updating txnId and note only when a
non-empty value is supplied (otherwise retaining the prior value, never
clearing it); the record's coins, amountInRupees, upiId and time are intact,
every player's balance is unchanged (in particular a Rejected status does not
refund the debited coins), every other player's history is unchanged, and
the manual payments list is untouched. -/
theorem C9_adminUpdate_frame (st : ServerState) (player : String) (i : Int)
    (status txnId note : String) (w : WithdrawRecord)
    (hp : player ≠ "")
    (hs : status = "Pending" ∨ status = "Approved" ∨ status = "Rejected")
    (hw : listGetInt (historyOf st player) i = some w) :
    historyOf (adminUpdate st player (some i) status txnId note).2 player
        = (historyOf st player).set i.toNat
            { coins := w.coins, amountInRupees := w.amountInRupees,
              upiId := w.upiId, status := status,
              txnId := if txnId = "" then w.txnId else txnId,
              note := if note = "" then w.note else note, time := w.time }
    ∧ (∀ p2, balanceOf (adminUpdate st player (some i) status txnId note).2 p2
          = balanceOf st p2)
    ∧ (∀ p2, normName p2 ≠ normName player →
          historyOf (adminUpdate st player (some i) status txnId note).2 p2
            = historyOf st p2)
    ∧ (adminUpdate st player (some i) status txnId note).2.manualPayments
        = st.manualPayments := by
  unfold historyOf at hw
  cases hl : lookupPlayer st.players (normName player) with
  | none =>
    rw [getPlayer_of_lookup_none hl] at hw
    simp [listGetInt, freshPlayer] at hw
  | some p =>
    rw [getPlayer_of_lookup hl] at hw
    simp only at hw
    have hre : adminUpdate st player (some i) status txnId note
        = (.ok (p.withdrawHistory.set i.toNat
              { w with
                status := status
                txnId := if txnId = "" then w.txnId else txnId
                note := if note = "" then w.note else note }),
           ⟨setPlayer st.players (normName player)
              ⟨p.balance, p.withdrawHistory.set i.toNat
                { w with
                  status := status
                  txnId := if txnId = "" then w.txnId else txnId
                  note := if note = "" then w.note else note }⟩,
            st.manualPayments⟩) := by
      unfold adminUpdate
      simp only [if_neg hp, if_neg (not_not_intro hs), getPlayer_of_lookup hl, hw]
    rw [hre]
    refine ⟨?_, ?_, ?_, rfl⟩
    · unfold historyOf
      rw [getPlayer_of_lookup hl]
      simp [getPlayer_fst_setPlayer]
    · intro p2
      unfold balanceOf
      simp only [getPlayer_fst_setPlayer]
      by_cases hn : normName p2 = normName player
      · rw [if_pos hn, getPlayer_fst_eq_of_norm st.players hn,
          getPlayer_of_lookup hl]
      · rw [if_neg hn]
    · intro p2 hn
      unfold historyOf
      simp only [getPlayer_fst_setPlayer, if_neg hn]

/-- Witness for C9: approving Alice's only withdrawal with txnId "T1" and no
note overwrites the status, sets txnId, keeps the empty note, and leaves her
balance at 0. -/
theorem C9_witness :
    historyOf (adminUpdate
        ⟨[("Alice", ⟨0, [⟨1000, "10.00", "alice@upi", "Pending", "", "", "t"⟩]⟩)], []⟩
        "Alice" (some 0) "Approved" "T1" "").2 "Alice"
      = [⟨1000, "10.00", "alice@upi", "Approved", "T1", "", "t"⟩]
    ∧ balanceOf (adminUpdate
        ⟨[("Alice", ⟨0, [⟨1000, "10.00", "alice@upi", "Pending", "", "", "t"⟩]⟩)], []⟩
        "Alice" (some 0) "Approved" "T1" "").2 "Alice" = 0 := by
  have h := C9_adminUpdate_frame
    ⟨[("Alice", ⟨0, [⟨1000, "10.00", "alice@upi", "Pending", "", "", "t"⟩]⟩)], []⟩
    "Alice" 0 "Approved" "T1" "" ⟨1000, "10.00", "alice@upi", "Pending", "", "", "t"⟩
    (by decide) (Or.inr (Or.inl rfl)) rfl
  constructor
  · exact h.1.trans (by decide)
  · exact (h.2.1 "Alice").trans (by decide)

/-- C10: an `adminUpdate` naming a player absent from the store, with a valid
status and any integer index, creates that player's record (balance 1000,
empty history) as a side effect and then fails with NotFound — the store is
mutated on this error path. -/
theorem C10_adminUpdate_creates (st : ServerState) (player : String)
    (status txnId note : String) (i : Int)
    (hp : player ≠ "")
    (habs : lookupPlayer st.players player = none)
    (hs : status = "Pending" ∨ status = "Approved" ∨ status = "Rejected") :
    adminUpdate st player (some i) status txnId note
      = (.error (.NotFound "Withdraw not found"),
         ⟨setPlayer st.players player freshPlayer, st.manualPayments⟩)
    ∧ lookupPlayer
        (adminUpdate st player (some i) status txnId note).2.players player
      = some ⟨1000, []⟩ := by
  have hnorm : normName player = player := if_neg hp
  have habs2 : lookupPlayer st.players (normName player) = none := by
    rw [hnorm]
    exact habs
  have hre : adminUpdate st player (some i) status txnId note
      = (.error (.NotFound "Withdraw not found"),
         ⟨setPlayer st.players player freshPlayer, st.manualPayments⟩) := by
    unfold adminUpdate
    simp only [if_neg hp, if_neg (not_not_intro hs),
      getPlayer_of_lookup_none habs2, hnorm]
    simp [listGetInt, freshPlayer]
  refine ⟨hre, ?_⟩
  rw [hre]
  exact lookupPlayer_setPlayer_self st.players player freshPlayer

/-- Witness for C10: updating a withdrawal of the unknown player "Ghost"
fails with NotFound yet creates Ghost with balance 1000 and empty history. -/
theorem C10_witness :
    adminUpdate initState "Ghost" (some 5) "Approved" "" ""
      = (.error (.NotFound "Withdraw not found"),
         ⟨[("Ghost", ⟨1000, []⟩)], []⟩)
    ∧ lookupPlayer
        (adminUpdate initState "Ghost" (some 5) "Approved" "" "").2.players
        "Ghost" = some ⟨1000, []⟩ :=
  C10_adminUpdate_creates initState "Ghost" "Approved" "" "" 5
    (by decide) rfl (Or.inr (Or.inl rfl))

end Spinkar
